import Mathlib

/-!
Verification development for the AIA_TIMELINE scraper.

The repository consists of `scraper.py` (timestamp normalization, row
reshaping, end-time rollover, deduplication) and `config.py` (static
configuration: the `MAP_4` categorical-code table, time-format catalogue and
dataset metadata).  This file shallowly embeds the functions those claims are
about and proves or refutes each claim.

Modelling conventions:
- `pandas.Timestamp` values (minute resolution, which is all the claims use)
  are modelled by `Timestamp` (a calendar `Date` plus a `Time` of day).
  Ordering and subtraction of pandas timestamps are modelled through
  `toMin`, the number of minutes since the civil epoch, computed with the
  standard days-from-civil calendar algorithm.
- Python strings are modelled as `String` or `List Char` (for the
  character-level parsing code); Python's `s in t` substring test is
  decidable list-infix containment.
- Fallible Python code is modelled with `Except PyError`; each `PyError`
  constructor documents the concrete Python exception it models.
-/

/-- Calendar date (year, month, day), modelling the date part of a
`pandas.Timestamp`. -/
structure Date where
  year : Nat
  month : Nat
  day : Nat
  deriving DecidableEq, Repr

/-- Time of day at minute resolution, modelling the time part of a
`pandas.Timestamp` as used by this program (all relevant tokens are
`HH:MM`). -/
structure Time where
  hh : Nat
  mm : Nat
  deriving DecidableEq, Repr

/-- An absolute timestamp: a calendar date plus a time of day. -/
structure Timestamp where
  date : Date
  time : Time
  deriving DecidableEq, Repr

/-- Gregorian leap-year test. -/
def isLeap (y : Nat) : Bool :=
  (y % 4 == 0 && y % 100 != 0) || (y % 400 == 0)

/-- Number of days in a month of the Gregorian calendar. -/
def daysInMonth (y m : Nat) : Nat :=
  if m = 2 then (if isLeap y then 29 else 28)
  else if m = 4 ∨ m = 6 ∨ m = 9 ∨ m = 11 then 30
  else 31

/-- Day count of a civil date (days-from-civil algorithm), used to model
ordering and subtraction of `pandas.Timestamp` values. -/
def daysFromCivilN (y m d : Nat) : Nat :=
  let y' := if m ≤ 2 then y - 1 else y
  let era := y' / 400
  let yoe := y' % 400
  let mp := if 2 < m then m - 3 else m + 9
  let doy := (153 * mp + 2) / 5 + d - 1
  let doe := yoe * 365 + yoe / 4 - yoe / 100 + doy
  era * 146097 + doe

/-- Minutes since the civil epoch; models the linear order and subtraction of
`pandas.Timestamp` at minute resolution. -/
def toMin (t : Timestamp) : Nat :=
  daysFromCivilN t.date.year t.date.month t.date.day * 1440 + t.time.hh * 60 + t.time.mm

/-- Calendar successor of a date; models adding `pd.Timedelta(days=1)` to a
timestamp's date. -/
def addOneDay (d : Date) : Date :=
  if d.day < daysInMonth d.year d.month then ⟨d.year, d.month, d.day + 1⟩
  else if d.month < 12 then ⟨d.year, d.month + 1, 1⟩
  else ⟨d.year + 1, 1, 1⟩

/-- Python exceptions raised by the embedded code. -/
inductive PyError where
  /-- `ValueError` from `pd.Timestamp` on an unparseable string (the spec's
  `UnparseableTimestamp`). -/
  | valueError
  /-- `AttributeError` from `_hack.date()` when `_hack is None` in
  `_format_date` (the spec's `MissingAnchor`). -/
  | missingAnchor
  /-- `IndexError` from `new_date[1]` when the length 9-12 token has no
  space. -/
  | indexError
  /-- `ZeroDivisionError` from `len(date) // (len(date) // 10)`. -/
  | zeroDivision
  /-- `KeyError` from the `MAP_4[x]` dictionary lookup (the spec's
  `UnknownCategoricalCode`). -/
  | unknownCategoricalCode
  deriving DecidableEq, Repr

/-- Decidable equality of `Except` results, so that concrete runs of the
embedded fallible functions can be checked by `decide`. -/
instance {ε α : Type} [DecidableEq ε] [DecidableEq α] : DecidableEq (Except ε α) :=
  fun a b =>
    match a, b with
    | Except.ok x, Except.ok y =>
      if h : x = y then isTrue (by rw [h]) else isFalse (by simp [h])
    | Except.ok _, Except.error _ => isFalse (by simp)
    | Except.error _, Except.ok _ => isFalse (by simp)
    | Except.error x, Except.error y =>
      if h : x = y then isTrue (by rw [h]) else isFalse (by simp [h])

/-! ## EndTimeRollover: `_process_end_time` (scraper.py lines 114-124)

The Python function receives a dataframe whose column 0 holds full start
timestamps and whose column 1 holds bare end times of day.  It first rewrites
column 1 to `start`'s calendar date paired with the end time of day
(`strftime("%m/%d/%Y") + " " + end`), then adds `pd.Timedelta(days=1)` to
each row whose start `x` and combined end `y` satisfy `x < y`, i.e. the day
is incremented exactly when the combined end is strictly after the start. -/

/-- Embeds `_process_end_time`: each row is a (start timestamp, end
time-of-day) pair; the result pairs each start with the absolute end
timestamp the code computes. -/
def _process_end_time (rows : List (Timestamp × Time)) : List (Timestamp × Timestamp) :=
  rows.map fun se =>
    let combined : Timestamp := ⟨se.1.date, se.2⟩
    -- Python: `pd.Timedelta(days=1) if x < y else pd.Timedelta(days=0)`
    -- with `x` drawn from column 0 (start) and `y` from column 1 (end).
    let bump := toMin se.1 < toMin combined
    (se.1, if bump then ⟨addOneDay combined.date, combined.time⟩ else combined)

/-! ## Categorical code table: `MAP_4` (config.py) and `_reformat_data`
(scraper.py lines 195-198) -/

/-- The fixed 20-entry categorical-code table `MAP_4` from `config.py`;
`none` models the absence of a key (a lookup raises `KeyError`). -/
def MAP_4 : Nat → Option String
  | 0 => some "Roll Maneuvers"
  | 1 => some "Momentum Management Maneuvers"
  | 2 => some "Station-Keeping Maneuvers"
  | 3 => some "Eclipse Season Begins"
  | 4 => some "Eclipse Season Ends"
  | 5 => some "Battery Voltage Adjustments"
  | 6 => some "EVE Crucform Maneuvers"
  | 7 => some "EVE FOV & Offpoint Maneuvers"
  | 8 => some "GT/PZT Calibrations"
  | 9 => some "CCD Bakeout"
  | 10 => some "Regulus Offpoint"
  | 11 => some "Comet Offpoint"
  | 12 => some "Camera Anomaly"
  | 13 => some "Transit Ops/Transit"
  | 14 => some "IRU Operations"
  | 15 => some "load shed"
  | 16 => some "Load/Software Anomaly/Error"
  | 17 => some "Table Parity Error"
  | 18 => some "Misc Instrument Errors Not Listed Above"
  | 19 => some "Misc Tests/Special Ops"
  | _ => none

/-- Embeds the `"_4"` branch of `_reformat_data` applied to one comment
cell: `data["Comment"].apply(lambda x: MAP_4[x])`.  A missing key raises
`KeyError`, modelled as `PyError.unknownCategoricalCode`. -/
def reformat4Comment (code : Nat) : Except PyError String :=
  match MAP_4 code with
  | some s => Except.ok s
  | none => Except.error PyError.unknownCategoricalCode

/-! ## Triple concatenation in `process_txt` (scraper.py lines 249-257) -/

/-- An event record with the five canonical fields of the timeline
(`Start Time`, `End Time`, `Instrument`, `Source`, `Comment`).  `End Time`
is `none` where the dataframe holds a missing value (serialized later as
the sentinel `"Unknown"`). -/
structure Event where
  start : Timestamp
  endT : Option Timestamp
  instrument : String
  source : String
  comment : String
  deriving DecidableEq, Repr

/-- Embeds the tail of `process_txt` (scraper.py lines 249-257): after the
per-file parsing produced `new_data`, the code runs
`data = pd.concat([data, new_data])`, then, when the result is non-empty,
`data = pd.concat([data, new_data])` again, and finally
`data = pd.concat([data, new_data])` a third time.  (The two
`new_data["Source"] = ...` assignments both store the same value and do not
change row multiplicity.) -/
def process_txt_concat (data new_data : List Event) : List Event :=
  let d1 := data ++ new_data
  let d2 := if d1.isEmpty then new_data else d1 ++ new_data
  d2 ++ new_data

/-! ## Instrument choice for row-level hypertext tables
(scraper.py lines 315-316) -/

/-- Python's `str.strip()`: drop leading and trailing whitespace. -/
def pyStrip (s : String) : String :=
  ⟨((s.data.dropWhile Char.isWhitespace).reverse.dropWhile Char.isWhitespace).reverse⟩

/-- Embeds `instrument = "SDO" if text[2].strip() else "AIA" if
text[4].strip() else "HMI"` from `process_html`: the generic event column
(`text[2]`), the AIA description column (`text[4]`) and the catch-all
result `"HMI"`.  Python's string truthiness after `.strip()` is
`pyStrip ≠ ""`. -/
def rowInstrument (t2 t4 : String) : String :=
  if pyStrip t2 ≠ "" then "SDO"
  else if pyStrip t4 ≠ "" then "AIA"
  else "HMI"

/-! ## Deduplicator: `drop_duplicates` (scraper.py lines 357-405)

The Python function seeds `updated_timeline` with the first row, then for
each later row either takes the merge branch (when
`row["Start Time"] - updated_timeline.iloc[-1]["Start Time"] <=
pd.Timedelta("5 minute")`) or appends the row.  The merge branch performs its
updates through `updated_timeline.loc[updated_timeline["Start Time"] ==
row["Start Time"], ...] = ...`, i.e. it writes only to accumulated rows
whose start time equals the incoming row's start time. -/

/-- Models one `updated_timeline.loc[updated_timeline["Start Time"] ==
row["Start Time"], field] = v` assignment: update `field` on every row whose
start equals `s`. -/
def locSet (tl : List Event) (s : Timestamp) (f : Event → Event) : List Event :=
  tl.map fun e => if e.start = s then f e else e

/-- Python's `a in b` substring test on strings. -/
def strIn (a b : String) : Bool := decide (a.data <:+: b.data)

/-- One iteration of the `for idx, row in data.iterrows()` loop body of
`drop_duplicates` (for `idx >= 1`), acting on the accumulated
`updated_timeline`. -/
def mergeStep (tl : List Event) (row : Event) : List Event :=
  match tl.getLast? with
  | none => tl
  | some last =>
    -- Python: `row["Start Time"] - updated_timeline.iloc[-1]["Start Time"]
    --          <= pd.Timedelta("5 minute")`
    if (toMin row.start : Int) - (toMin last.start : Int) ≤ 5 then
      let tl := locSet tl row.start fun e => { e with endT := row.endT }
      let tl := if last.instrument ≠ row.instrument then
          locSet tl row.start fun e => { e with instrument := "SDO" }
        else tl
      let tl := if ¬ strIn row.comment last.comment then
          locSet tl row.start fun e =>
            { e with comment := last.comment ++ " and " ++ row.comment }
        else tl
      let tl := if ¬ strIn row.source last.source then
          locSet tl row.start fun e =>
            { e with source := last.source ++ " and " ++ row.source }
        else tl
      tl
    else
      tl ++ [row]

/-- Embeds `drop_duplicates`: seed the output with the first row of `data`,
then run the loop body on each later row.  (On an empty dataframe the Python
code raises `KeyError` reading row 0; no claim exercises that case.) -/
def drop_duplicates (data : List Event) : List Event :=
  match data with
  | [] => []
  | first :: rest => rest.foldl mergeStep [first]

/-! ## Final sort: `final_timeline.sort_values("Start Time")`
(scraper.py line 433)

`sort_values` is called with the default `kind='quicksort'`, which pandas
documents as an unstable sort.  Its contract is therefore modelled as a
relation: the output is some permutation of the input whose start times are
non-decreasing; nothing more is guaranteed about the relative order of rows
with equal start times. -/

/-- Starts are non-decreasing between adjacent rows. -/
def sortedStarts (l : List Event) : Prop :=
  List.Chain' (· ≤ ·) (l.map fun e => toMin e.start)

/-- The contract of `final_timeline.sort_values("Start Time")` with the
default unstable `kind='quicksort'`: the output is a start-ordered
permutation of the input. -/
def sortValuesQuicksort (input output : List Event) : Prop :=
  output.Perm input ∧ sortedStarts output

/-- Row `a` occurs (at least once) strictly before row `b` in `l`. -/
def isBefore (l : List Event) (a b : Event) : Prop :=
  ∃ i j, i < j ∧ l.get? i = some a ∧ l.get? j = some b

/-- Rows with equal start times keep their relative order from `input` in
`output` (the tie-breaking half of the ordering-invariant claim). -/
def tiesInIngestionOrder (input output : List Event) : Prop :=
  ∀ a b, toMin a.start = toMin b.start → isBefore input a b → isBefore output a b

/-! ## Character-level string utilities for `_format_date`

Python strings are modelled as `List Char`; `str.split(sep)` with an
explicit one-character separator is `splitOnChar`. -/

/-- Python's `s.split(c)` for a single-character separator `c`: splits at
every occurrence, keeping empty segments. -/
def splitOnChar (sep : Char) : List Char → List (List Char)
  | [] => [[]]
  | c :: cs =>
    let r := splitOnChar sep cs
    if c = sep then [] :: r
    else
      match r with
      | [] => [[c]]
      | h :: t => (c :: h) :: t

/-- Numeric value of a list of decimal digit characters; `none` when the
list is empty or contains a non-digit. -/
def parseNatL (l : List Char) : Option Nat :=
  if l.isEmpty then none
  else if l.all Char.isDigit then
    some (l.foldl (fun n c => n * 10 + (c.toNat - 48)) 0)
  else none

/-- Models `pd.Timestamp` acceptance of a bare `HH:MM` time-of-day token
(both fields decimal, hour below 24, minute below 60). -/
def parseHHMML (l : List Char) : Option Time :=
  match splitOnChar ':' l with
  | [h, m] =>
    match parseNatL h, parseNatL m with
    | some hh, some mm => if hh < 24 ∧ mm < 60 then some ⟨hh, mm⟩ else none
    | _, _ => none
  | _ => none

/-- Models `pd.Timestamp` acceptance of a `YYYY-MM-DD` calendar-date token
(four-digit year, month and day in calendar range). -/
def parseYMDL (l : List Char) : Option Date :=
  match splitOnChar '-' l with
  | [y, m, d] =>
    match parseNatL y, parseNatL m, parseNatL d with
    | some yy, some mm, some dd =>
      if y.length = 4 ∧ 1 ≤ mm ∧ mm ≤ 12 ∧ 1 ≤ dd ∧ dd ≤ daysInMonth yy mm then
        some ⟨yy, mm, dd⟩
      else none
    | _, _, _ => none
  | _ => none

/-- Models the `pd.Timestamp` constructor on the string shapes this program
feeds it: a bare `HH:MM` time (which pandas anchors on the current date,
the `today` argument), a `YYYY-MM-DD` date (midnight), or a
`YYYY-MM-DD HH:MM` datetime.  `none` models `ValueError` on anything
else. -/
def pdTimestampL (today : Date) (l : List Char) : Option Timestamp :=
  match splitOnChar ' ' l with
  | [one] =>
    match parseHHMML one with
    | some t => some ⟨today, t⟩
    | none => (parseYMDL one).map fun d => ⟨d, ⟨0, 0⟩⟩
  | [d, t] =>
    match parseYMDL d, parseHHMML t with
    | some dd, some tt => some ⟨dd, tt⟩
    | _, _ => none
  | _ => none

/-- Decimal digit character for `k < 10`. -/
def digitChar (k : Nat) : Char := Char.ofNat (48 + k)

/-- Two-digit zero-padded numeral, as produced by `str(datetime.date)` for
months and days. -/
def pad2 (n : Nat) : List Char := [digitChar (n / 10 % 10), digitChar (n % 10)]

/-- Four-digit zero-padded numeral, as produced by `str(datetime.date)` for
years. -/
def pad4 (n : Nat) : List Char :=
  [digitChar (n / 1000 % 10), digitChar (n / 100 % 10), digitChar (n / 10 % 10),
   digitChar (n % 10)]

/-- Models Python's `str(_hack.date())`: the ISO `YYYY-MM-DD` rendering of a
date. -/
def dateStrL (d : Date) : List Char :=
  pad4 d.year ++ '-' :: pad2 d.month ++ '-' :: pad2 d.day

/-- A date on which `str(date)` round-trips: year below 10000 and month/day
in calendar range. -/
def ValidDate (d : Date) : Prop :=
  d.year < 10000 ∧ 1 ≤ d.month ∧ d.month ≤ 12 ∧ 1 ≤ d.day ∧
    d.day ≤ daysInMonth d.year d.month

instance (d : Date) : Decidable (ValidDate d) :=
  inferInstanceAs (Decidable (_ ∧ _ ∧ _ ∧ _ ∧ _))

/-! ## `_format_date` (scraper.py lines 13-53)

The `today` parameter records the wall-clock date `pd.Timestamp` substitutes
when handed a bare time-of-day string; the Python function reads it
implicitly from the system clock. -/

/-- Embeds `_format_date(date, year, _hack)`.  Branches follow the source:
`year is None` → `pd.Timestamp(date)`; cleaned length 4-5 → anchor-date
combination (no `"/"`) or `f"{year}-{date}"`; length 9-12 → splice `year`
between the space-separated halves; otherwise try the part before `"-"`,
and on `ValueError` slice the token at `len(date) // (len(date) // 10)`
(which raises `ZeroDivisionError` when `len(date) // 10 == 0`). -/
def _format_date (today : Date) (date : List Char) (year : Option (List Char))
    (hack : Option Timestamp) : Except PyError Timestamp :=
  match year with
  | none =>
    match pdTimestampL today date with
    | some t => Except.ok t
    | none => Except.error PyError.valueError
  | some y =>
    if date.length = 4 ∨ date.length = 5 then
      if '/' ∈ date then
        match pdTimestampL today (y ++ '-' :: date) with
        | some t => Except.ok t
        | none => Except.error PyError.valueError
      else
        match hack with
        | none => Except.error PyError.missingAnchor
        | some a =>
          match pdTimestampL today (dateStrL a.date ++ ' ' :: date) with
          | some t => Except.ok t
          | none => Except.error PyError.valueError
    else if date.length = 9 ∨ date.length = 10 ∨ date.length = 11 ∨ date.length = 12 then
      match splitOnChar ' ' date with
      | d0 :: d1 :: _ =>
        match pdTimestampL today (d0 ++ '/' :: y ++ ' ' :: d1) with
        | some t => Except.ok t
        | none => Except.error PyError.valueError
      | _ => Except.error PyError.indexError
    else
      match pdTimestampL today ((splitOnChar '-' date).headD []) with
      | some t => Except.ok t
      | none =>
        if date.length / 10 = 0 then Except.error PyError.zeroDivision
        else
          match pdTimestampL today (y ++ '-' :: date.take (date.length / (date.length / 10))) with
          | some t => Except.ok t
          | none => Except.error PyError.valueError

/-! ## Helper lemmas -/

/-- Splitting never yields the empty list of segments. -/
theorem splitOnChar_ne_nil (sep : Char) (l : List Char) : splitOnChar sep l ≠ [] := by
  induction l with
  | nil => simp [splitOnChar]
  | cons c cs ih =>
    simp only [splitOnChar]
    by_cases hc : c = sep
    · simp [hc]
    · simp only [hc, if_false]
      cases hsp : splitOnChar sep cs <;> simp

/-- Splitting a separator-free list yields the list itself as sole segment. -/
theorem splitOnChar_not_mem (sep : Char) (l : List Char) (h : sep ∉ l) :
    splitOnChar sep l = [l] := by
  induction l with
  | nil => rfl
  | cons c cs ih =>
    have hc : ¬ c = sep := fun hcs => h (hcs ▸ List.mem_cons_self c cs)
    have hcs : sep ∉ cs := fun hm => h (List.mem_cons_of_mem c hm)
    simp only [splitOnChar, hc, if_false]
    rw [ih hcs]

/-- Splitting distributes over the first separator occurrence. -/
theorem splitOnChar_append (sep : Char) (a b : List Char) (ha : sep ∉ a) :
    splitOnChar sep (a ++ sep :: b) = a :: splitOnChar sep b := by
  induction a with
  | nil => simp [splitOnChar]
  | cons c cs ih =>
    have hc : ¬ c = sep := fun hcs => ha (hcs ▸ List.mem_cons_self c cs)
    have hcs : sep ∉ cs := fun hm => ha (List.mem_cons_of_mem c hm)
    simp only [List.cons_append, splitOnChar, hc, if_false, List.append_eq]
    rw [ih hcs]

/-- A one-segment split means the list had no separator: the segment is the
list. -/
theorem splitOnChar_eq_singleton (sep : Char) (l x : List Char)
    (h : splitOnChar sep l = [x]) : l = x := by
  induction l generalizing x with
  | nil => simpa [splitOnChar] using h.symm
  | cons c cs ih =>
    by_cases hc : c = sep
    · simp only [splitOnChar, hc, if_true] at h
      exact absurd (List.cons.injEq _ _ _ _ ▸ h).2 (splitOnChar_ne_nil sep cs)
    · simp only [splitOnChar, hc, if_false] at h
      cases hsp : splitOnChar sep cs with
      | nil => exact absurd hsp (splitOnChar_ne_nil sep cs)
      | cons hd tl =>
        rw [hsp] at h
        obtain ⟨hx, htl⟩ := List.cons.injEq _ _ _ _ ▸ h
        subst htl
        rw [← hx, ih hd hsp]

/-- A two-segment split recovers the original list around the separator. -/
theorem splitOnChar_eq_pair (sep : Char) (l a b : List Char)
    (h : splitOnChar sep l = [a, b]) : l = a ++ sep :: b := by
  induction l generalizing a with
  | nil => simp [splitOnChar] at h
  | cons c cs ih =>
    by_cases hc : c = sep
    · simp only [splitOnChar, hc, if_true] at h
      obtain ⟨ha, hr⟩ := List.cons.injEq _ _ _ _ ▸ h
      rw [← ha, List.nil_append, splitOnChar_eq_singleton sep cs b hr, hc]
    · simp only [splitOnChar, hc, if_false] at h
      cases hsp : splitOnChar sep cs with
      | nil => exact absurd hsp (splitOnChar_ne_nil sep cs)
      | cons hd tl =>
        rw [hsp] at h
        obtain ⟨ha, htl⟩ := List.cons.injEq _ _ _ _ ▸ h
        subst htl
        rw [← ha, List.cons_append, ih hd hsp]

/-- Decimal digit characters are digits. -/
theorem digitChar_isDigit : ∀ k, k < 10 → (digitChar k).isDigit = true := by decide

/-- Code point of a decimal digit character. -/
theorem digitChar_toNat : ∀ k, k < 10 → (digitChar k).toNat = 48 + k := by decide

/-- A digit character is none of the separator characters this program
splits on. -/
theorem isDigit_ne_sep (c : Char) (h : c.isDigit = true) :
    c ≠ ' ' ∧ c ≠ '/' ∧ c ≠ '-' ∧ c ≠ ':' := by
  refine ⟨?_, ?_, ?_, ?_⟩ <;> rintro rfl <;> exact absurd h (by decide)

/-- A successful numeral parse certifies that every character is a digit. -/
theorem parseNatL_all_digits {l : List Char} {n : Nat} (h : parseNatL l = some n) :
    l.all Char.isDigit = true := by
  simp only [parseNatL] at h
  split at h
  · exact absurd h (by simp)
  · split at h
    · assumption
    · exact absurd h (by simp)

/-- Two-digit zero-padded numerals parse back to their value. -/
theorem parseNatL_pad2 (n : Nat) (h : n < 100) : parseNatL (pad2 n) = some n := by
  have h1 : n / 10 % 10 < 10 := Nat.mod_lt _ (by omega)
  have h2 : n % 10 < 10 := Nat.mod_lt _ (by omega)
  have hall : (pad2 n).all Char.isDigit = true := by
    simp [pad2, digitChar_isDigit _ h1, digitChar_isDigit _ h2]
  simp only [parseNatL]
  rw [if_neg (by simp [pad2]), if_pos hall]
  simp only [pad2, List.foldl, digitChar_toNat _ h1, digitChar_toNat _ h2,
    Option.some.injEq]
  omega

/-- Four-digit zero-padded numerals parse back to their value. -/
theorem parseNatL_pad4 (n : Nat) (h : n < 10000) : parseNatL (pad4 n) = some n := by
  have h1 : n / 1000 % 10 < 10 := Nat.mod_lt _ (by omega)
  have h2 : n / 100 % 10 < 10 := Nat.mod_lt _ (by omega)
  have h3 : n / 10 % 10 < 10 := Nat.mod_lt _ (by omega)
  have h4 : n % 10 < 10 := Nat.mod_lt _ (by omega)
  have hall : (pad4 n).all Char.isDigit = true := by
    simp [pad4, digitChar_isDigit _ h1, digitChar_isDigit _ h2,
      digitChar_isDigit _ h3, digitChar_isDigit _ h4]
  simp only [parseNatL]
  rw [if_neg (by simp [pad4]), if_pos hall]
  simp only [pad4, List.foldl, digitChar_toNat _ h1, digitChar_toNat _ h2,
    digitChar_toNat _ h3, digitChar_toNat _ h4, Option.some.injEq]
  omega

/-- Every character of a two-digit numeral is a digit. -/
theorem pad2_digits (n : Nat) : ∀ c ∈ pad2 n, c.isDigit = true := by
  intro c hc
  simp only [pad2, List.mem_cons, List.mem_singleton, List.not_mem_nil] at hc
  rcases hc with rfl | rfl | hfalse
  · exact digitChar_isDigit _ (Nat.mod_lt _ (by omega))
  · exact digitChar_isDigit _ (Nat.mod_lt _ (by omega))
  · exact absurd hfalse (by simp)

/-- Every character of a four-digit numeral is a digit. -/
theorem pad4_digits (n : Nat) : ∀ c ∈ pad4 n, c.isDigit = true := by
  intro c hc
  simp only [pad4, List.mem_cons, List.not_mem_nil] at hc
  rcases hc with rfl | rfl | rfl | rfl | hfalse
  · exact digitChar_isDigit _ (Nat.mod_lt _ (by omega))
  · exact digitChar_isDigit _ (Nat.mod_lt _ (by omega))
  · exact digitChar_isDigit _ (Nat.mod_lt _ (by omega))
  · exact digitChar_isDigit _ (Nat.mod_lt _ (by omega))
  · exact absurd hfalse (by simp)

/-- The ISO rendering of a date contains no dash except the two field
separators, in particular none inside the numerals. -/
theorem dash_not_mem_pad4 (n : Nat) : '-' ∉ pad4 n := fun h =>
  absurd (pad4_digits n '-' h) (by decide)

/-- Two-digit numerals contain no dash. -/
theorem dash_not_mem_pad2 (n : Nat) : '-' ∉ pad2 n := fun h =>
  absurd (pad2_digits n '-' h) (by decide)

/-- Every character of the ISO rendering of a date is a digit or a dash. -/
theorem mem_dateStrL (d : Date) : ∀ c ∈ dateStrL d, c.isDigit = true ∨ c = '-' := by
  intro c hc
  by_cases hdash : c = '-'
  · exact Or.inr hdash
  · left
    have hm : c ∈ pad4 d.year ∨ c ∈ pad2 d.month ∨ c ∈ pad2 d.day := by
      simp only [dateStrL, List.mem_append, List.mem_cons] at hc
      tauto
    rcases hm with hm | hm | hm
    · exact pad4_digits _ _ hm
    · exact pad2_digits _ _ hm
    · exact pad2_digits _ _ hm

/-- The ISO rendering of a date contains no space. -/
theorem space_not_mem_dateStrL (d : Date) : ' ' ∉ dateStrL d := by
  intro h
  rcases mem_dateStrL d ' ' h with hd | he
  · exact absurd hd (by decide)
  · exact absurd he (by decide)

/-- A month length never exceeds 31 days. -/
theorem daysInMonth_le (y m : Nat) : daysInMonth y m ≤ 31 := by
  unfold daysInMonth
  split
  · split <;> omega
  · split <;> omega

/-- The ISO rendering of a valid date parses back to that date. -/
theorem parseYMDL_dateStrL (d : Date) (hv : ValidDate d) :
    parseYMDL (dateStrL d) = some d := by
  obtain ⟨hy, hm1, hm2, hd1, hd2⟩ := hv
  have hshape : dateStrL d = pad4 d.year ++ '-' :: (pad2 d.month ++ '-' :: pad2 d.day) := by
    simp [dateStrL]
  have hsplit : splitOnChar '-' (dateStrL d) = [pad4 d.year, pad2 d.month, pad2 d.day] := by
    rw [hshape, splitOnChar_append '-' _ _ (dash_not_mem_pad4 _),
      splitOnChar_append '-' _ _ (dash_not_mem_pad2 _),
      splitOnChar_not_mem '-' _ (dash_not_mem_pad2 _)]
  have hday : d.day < 100 := by
    have := daysInMonth_le d.year d.month
    omega
  simp only [parseYMDL, hsplit]
  rw [parseNatL_pad4 _ hy, parseNatL_pad2 _ (by omega), parseNatL_pad2 _ hday]
  have hlen : (pad4 d.year).length = 4 := rfl
  simp [hlen, hm1, hm2, hd1, hd2]

/-- A successfully parsed time token is two all-digit fields joined by a
colon. -/
theorem parseHHMML_shape {l : List Char} {t : Time} (h : parseHHMML l = some t) :
    ∃ h1 m1, l = h1 ++ ':' :: m1 ∧ h1.all Char.isDigit = true ∧
      m1.all Char.isDigit = true := by
  simp only [parseHHMML] at h
  cases hsp : splitOnChar ':' l with
  | nil => rw [hsp] at h; exact absurd h (by simp)
  | cons a rest =>
    cases rest with
    | nil => rw [hsp] at h; exact absurd h (by simp)
    | cons b rest2 =>
      cases rest2 with
      | cons x xs => rw [hsp] at h; exact absurd h (by simp)
      | nil =>
        rw [hsp] at h
        dsimp only at h
        cases hpa : parseNatL a with
        | none => rw [hpa] at h; simp at h
        | some na =>
          cases hpb : parseNatL b with
          | none => rw [hpa, hpb] at h; simp at h
          | some nb =>
            exact ⟨a, b, splitOnChar_eq_pair ':' l a b hsp,
              parseNatL_all_digits hpa, parseNatL_all_digits hpb⟩

/-- A successfully parsed time token contains neither a space nor a slash. -/
theorem parseHHMML_not_mem {l : List Char} {t : Time} (h : parseHHMML l = some t) :
    ' ' ∉ l ∧ '/' ∉ l := by
  obtain ⟨h1, m1, rfl, hd1, hd2⟩ := parseHHMML_shape h
  constructor
  · intro hmem
    simp only [List.mem_append, List.mem_cons] at hmem
    rcases hmem with hmem | hmem | hmem
    · exact absurd (List.all_eq_true.1 hd1 _ hmem) (by decide)
    · exact absurd hmem (by decide)
    · exact absurd (List.all_eq_true.1 hd2 _ hmem) (by decide)
  · intro hmem
    simp only [List.mem_append, List.mem_cons] at hmem
    rcases hmem with hmem | hmem | hmem
    · exact absurd (List.all_eq_true.1 hd1 _ hmem) (by decide)
    · exact absurd hmem (by decide)
    · exact absurd (List.all_eq_true.1 hd2 _ hmem) (by decide)

/-- Combining a valid date's ISO rendering with a parseable time token via a
space parses to the combined timestamp, independently of the wall-clock
date. -/
theorem pdTimestampL_date_time (today : Date) (d : Date) (tok : List Char)
    (t : Time) (hv : ValidDate d) (ht : parseHHMML tok = some t) :
    pdTimestampL today (dateStrL d ++ ' ' :: tok) = some ⟨d, t⟩ := by
  have hs1 : ' ' ∉ dateStrL d := space_not_mem_dateStrL d
  have hs2 : ' ' ∉ tok := (parseHHMML_not_mem ht).1
  simp only [pdTimestampL]
  rw [splitOnChar_append ' ' _ _ hs1, splitOnChar_not_mem ' ' _ hs2]
  dsimp only
  rw [parseYMDL_dateStrL d hv, ht]

/-- Mapping commutes with taking the last element. -/
theorem getLast?_map_toMin (l : List Event) :
    (l.map fun e => toMin e.start).getLast? = l.getLast?.map fun e => toMin e.start := by
  induction l with
  | nil => rfl
  | cons e es ih =>
    cases es with
    | nil => rfl
    | cons e2 es2 =>
      simp only [List.map_cons, List.getLast?_cons_cons] at ih ⊢
      exact ih

/-- A masked field update never touches the start column, so the sequence of
start times is unchanged. -/
theorem locSet_map_toMin (tl : List Event) (s : Timestamp) (f : Event → Event)
    (hf : ∀ e, (f e).start = e.start) :
    ((locSet tl s f).map fun e => toMin e.start) = tl.map fun e => toMin e.start := by
  induction tl with
  | nil => rfl
  | cons e es ih =>
    simp only [locSet, List.map_cons] at ih ⊢
    rw [ih]
    by_cases hs : e.start = s
    · simp [hs, hf]
    · simp [hs]

/-- A masked field update preserves sortedness of the start column. -/
theorem sortedStarts_locSet {tl : List Event} {s : Timestamp} {f : Event → Event}
    (hf : ∀ e, (f e).start = e.start) (h : sortedStarts tl) :
    sortedStarts (locSet tl s f) := by
  unfold sortedStarts at h ⊢
  rw [locSet_map_toMin tl s f hf]
  exact h

/-- One loop iteration of `drop_duplicates` preserves sortedness of the
accumulated timeline: the merge branch never changes start times, and the
append branch only appends an event more than five minutes after the last
accumulated start. -/
theorem mergeStep_sortedStarts (tl : List Event) (row : Event)
    (h : sortedStarts tl) : sortedStarts (mergeStep tl row) := by
  unfold mergeStep
  cases hlast : tl.getLast? with
  | none => exact h
  | some last =>
    dsimp only
    split
    · split <;> split <;> split <;>
        (repeat refine sortedStarts_locSet (fun e => rfl) ?_) <;>
        exact h
    · rename_i hcond
      unfold sortedStarts at h ⊢
      rw [List.map_append, List.chain'_append]
      refine ⟨h, List.chain'_singleton _, ?_⟩
      intro x hx y hy
      simp only [List.map_cons, List.map_nil, List.head?_cons, Option.mem_def,
        Option.some.injEq] at hy
      rw [getLast?_map_toMin, hlast] at hx
      simp only [Option.map_some', Option.mem_def, Option.some.injEq] at hx
      omega

/-- The accumulated timeline of `drop_duplicates` always has non-decreasing
start times: merge iterations never touch the start column and append
iterations only add events strictly later than the last accumulated one. -/
theorem drop_duplicates_sortedStarts (l : List Event) :
    sortedStarts (drop_duplicates l) := by
  cases l with
  | nil => simp [drop_duplicates, sortedStarts]
  | cons first rest =>
    suffices hgen : ∀ tl, sortedStarts tl → sortedStarts (rest.foldl mergeStep tl) by
      exact hgen [first] (by simp [sortedStarts])
    induction rest with
    | nil => exact fun tl h => h
    | cons r rs ih => exact fun tl h => ih (mergeStep tl r) (mergeStep_sortedStarts tl r h)

/-! ## Claim theorems -/

/-- C1: the claim states that `_process_end_time` advances the end's
calendar date by one day exactly when the end time-of-day is numerically
less than the start's time-of-day, with
`rollover(2021-03-04T23:50, "00:10") = 2021-03-05T00:10` and
`rollover(2021-03-04T10:00, "11:00") = 2021-03-04T11:00`.  Evaluating the
embedded code on those two rows shows the opposite: the code adds the day
when the combined end is after the start (its `x < y` test contradicts the
adjacent comment "Increment date if end time is before start time"), so the
midnight-crossing row keeps 2021-03-04T00:10 and the ordinary row is pushed
to 2021-03-05T11:00. -/
theorem c1_end_time_rollover_inverted_eval :
    _process_end_time
        [(⟨⟨2021, 3, 4⟩, ⟨23, 50⟩⟩, ⟨0, 10⟩), (⟨⟨2021, 3, 4⟩, ⟨10, 0⟩⟩, ⟨11, 0⟩)] =
      [(⟨⟨2021, 3, 4⟩, ⟨23, 50⟩⟩, ⟨⟨2021, 3, 4⟩, ⟨0, 10⟩⟩),
       (⟨⟨2021, 3, 4⟩, ⟨10, 0⟩⟩, ⟨⟨2021, 3, 5⟩, ⟨11, 0⟩⟩)] := by
  decide

/-- C2: the claim states that an event starting at most 5 minutes after the
open accumulator is merged into it (end overwritten, instrument set to SDO
on disagreement, comment extended with " and "), so that
`[(10:00,SDO,"A"), (10:03,AIA,"B"), (10:40,HMI,"C")]` yields a first output
with end from B and comment "A and B".  Evaluating the embedded
`drop_duplicates` shows the merge branch is a no-op when the start times
differ: its row mask selects accumulated rows whose start equals the
incoming start (10:03), which matches nothing, so event B is silently
dropped and the first output keeps end from A, comment "A". -/
theorem c2_dedup_window_merge_noop_eval :
    drop_duplicates
        [⟨⟨⟨2021, 3, 4⟩, ⟨10, 0⟩⟩, some ⟨⟨2021, 3, 4⟩, ⟨10, 30⟩⟩, "SDO", "src1", "A"⟩,
         ⟨⟨⟨2021, 3, 4⟩, ⟨10, 3⟩⟩, some ⟨⟨2021, 3, 4⟩, ⟨10, 35⟩⟩, "AIA", "src2", "B"⟩,
         ⟨⟨⟨2021, 3, 4⟩, ⟨10, 40⟩⟩, some ⟨⟨2021, 3, 4⟩, ⟨11, 0⟩⟩, "HMI", "src3", "C"⟩] =
      [⟨⟨⟨2021, 3, 4⟩, ⟨10, 0⟩⟩, some ⟨⟨2021, 3, 4⟩, ⟨10, 30⟩⟩, "SDO", "src1", "A"⟩,
       ⟨⟨⟨2021, 3, 4⟩, ⟨10, 40⟩⟩, some ⟨⟨2021, 3, 4⟩, ⟨11, 0⟩⟩, "HMI", "src3", "C"⟩] := by
  decide

/-- C3: every call of `process_txt` concatenates the freshly parsed rows to
the accumulated timeline three times, so with a non-empty accumulated frame
the result is `data ++ new ++ new ++ new` and every new row's multiplicity
is tripled. -/
theorem c3_process_txt_triplicates (data new_data : List Event) (h : data ≠ [])
    (r : Event) :
    process_txt_concat data new_data = data ++ new_data ++ new_data ++ new_data ∧
      (process_txt_concat data new_data).count r =
        data.count r + 3 * new_data.count r := by
  have hne : (data ++ new_data).isEmpty = false := by
    cases data with
    | nil => exact absurd rfl h
    | cons a l => rfl
  constructor
  · simp [process_txt_concat, hne]
  · simp [process_txt_concat, hne, List.count_append]
    omega

/-- Witness for C3 at a concrete one-row accumulated frame and one-row
parsed document. -/
theorem c3_process_txt_triplicates_witness :
    process_txt_concat
        [⟨⟨⟨2021, 1, 1⟩, ⟨1, 0⟩⟩, none, "SDO", "d", "D"⟩]
        [⟨⟨⟨2021, 1, 2⟩, ⟨2, 0⟩⟩, none, "AIA", "n", "N"⟩] =
      [⟨⟨⟨2021, 1, 1⟩, ⟨1, 0⟩⟩, none, "SDO", "d", "D"⟩] ++
        [⟨⟨⟨2021, 1, 2⟩, ⟨2, 0⟩⟩, none, "AIA", "n", "N"⟩] ++
        [⟨⟨⟨2021, 1, 2⟩, ⟨2, 0⟩⟩, none, "AIA", "n", "N"⟩] ++
        [⟨⟨⟨2021, 1, 2⟩, ⟨2, 0⟩⟩, none, "AIA", "n", "N"⟩] ∧
      (process_txt_concat
          [⟨⟨⟨2021, 1, 1⟩, ⟨1, 0⟩⟩, none, "SDO", "d", "D"⟩]
          [⟨⟨⟨2021, 1, 2⟩, ⟨2, 0⟩⟩, none, "AIA", "n", "N"⟩]).count
          ⟨⟨⟨2021, 1, 2⟩, ⟨2, 0⟩⟩, none, "AIA", "n", "N"⟩ =
        ([(⟨⟨⟨2021, 1, 1⟩, ⟨1, 0⟩⟩, none, "SDO", "d", "D"⟩ : Event)].count
            (⟨⟨⟨2021, 1, 2⟩, ⟨2, 0⟩⟩, none, "AIA", "n", "N"⟩ : Event)) +
          3 * ([(⟨⟨⟨2021, 1, 2⟩, ⟨2, 0⟩⟩, none, "AIA", "n", "N"⟩ : Event)].count
            (⟨⟨⟨2021, 1, 2⟩, ⟨2, 0⟩⟩, none, "AIA", "n", "N"⟩ : Event)) :=
  c3_process_txt_triplicates
    [⟨⟨⟨2021, 1, 1⟩, ⟨1, 0⟩⟩, none, "SDO", "d", "D"⟩]
    [⟨⟨⟨2021, 1, 2⟩, ⟨2, 0⟩⟩, none, "AIA", "n", "N"⟩]
    (by simp)
    ⟨⟨⟨2021, 1, 2⟩, ⟨2, 0⟩⟩, none, "AIA", "n", "N"⟩

/-- C9: the claim states that for a non-empty start-sorted input, every
input event's comment appears as a substring of exactly one output event's
comment.  Evaluating the embedded `drop_duplicates` on the sorted input
`[(10:00,"A"), (10:03,"B"), (10:40,"C")]` shows comment "B" appears in zero
output comments: the merge branch's row mask (equality with the incoming
start time) matches nothing, so the merged-away event's comment is lost
rather than concatenated. -/
theorem c9_dedup_comment_lost_eval :
    ((drop_duplicates
        [⟨⟨⟨2022, 5, 6⟩, ⟨10, 0⟩⟩, some ⟨⟨2022, 5, 6⟩, ⟨10, 30⟩⟩, "SDO", "f1", "A"⟩,
         ⟨⟨⟨2022, 5, 6⟩, ⟨10, 3⟩⟩, some ⟨⟨2022, 5, 6⟩, ⟨10, 35⟩⟩, "AIA", "f2", "B"⟩,
         ⟨⟨⟨2022, 5, 6⟩, ⟨10, 40⟩⟩, some ⟨⟨2022, 5, 6⟩, ⟨11, 0⟩⟩, "HMI", "f3", "C"⟩]).countP
      fun e => strIn "B" e.comment) = 0 := by
  decide

/-- C4 counterexample: the claim fixes `year=None`, but in that branch
`_format_date` returns `pd.Timestamp("18:15")`, which anchors the bare time
on the current wall-clock date and ignores the anchor argument entirely:
with wall-clock date 2020-01-01 the result is 2020-01-01T18:15, not the
claimed 2021-03-04T18:15. -/
theorem c4_repair_time_only_counterexample :
    _format_date ⟨2020, 1, 1⟩ "18:15".toList none (some ⟨⟨2021, 3, 4⟩, ⟨0, 0⟩⟩) =
        Except.ok ⟨⟨2020, 1, 1⟩, ⟨18, 15⟩⟩ ∧
      _format_date ⟨2020, 1, 1⟩ "18:15".toList none (some ⟨⟨2021, 3, 4⟩, ⟨0, 0⟩⟩) ≠
        Except.ok ⟨⟨2021, 3, 4⟩, ⟨18, 15⟩⟩ := by
  constructor
  · decide
  · decide

/-- C4 (amended): for every time-only token of length 4-5 parsing as
`HH:MM` (hence containing no "/"), when a year string is supplied (the
condition the code actually requires, instead of the claim's `year=None`)
and an anchor timestamp is present, `_format_date` combines the token with
the anchor's calendar date, independently of the wall-clock date `today`;
in particular repair("18:15", year="2021", anchor=2021-03-04T00:00) =
2021-03-04T18:15. -/
theorem c4_repair_time_only_anchor (today : Date) (tok : List Char) (t : Time)
    (y : List Char) (a : Timestamp) (hlen : tok.length = 4 ∨ tok.length = 5)
    (ht : parseHHMML tok = some t) (hv : ValidDate a.date) :
    _format_date today tok (some y) (some a) = Except.ok ⟨a.date, t⟩ := by
  have hslash : '/' ∉ tok := (parseHHMML_not_mem ht).2
  simp only [_format_date]
  rw [if_pos hlen, if_neg hslash]
  rw [pdTimestampL_date_time today a.date tok t hv ht]

/-- Witness for C4 (amended) at token "18:15", year "2021", anchor
2021-03-04T00:00 and wall-clock date 1999-12-31. -/
theorem c4_repair_time_only_anchor_witness :
    _format_date ⟨1999, 12, 31⟩ "18:15".toList (some "2021".toList)
        (some ⟨⟨2021, 3, 4⟩, ⟨0, 0⟩⟩) =
      Except.ok ⟨⟨2021, 3, 4⟩, ⟨18, 15⟩⟩ :=
  c4_repair_time_only_anchor ⟨1999, 12, 31⟩ "18:15".toList ⟨18, 15⟩
    "2021".toList ⟨⟨2021, 3, 4⟩, ⟨0, 0⟩⟩ (by decide) (by decide) (by decide)

/-- C6 counterexample: the claim says the instrument defaults to SDO when
none of the text columns is non-empty, but the chained conditional
`"SDO" if text[2].strip() else "AIA" if text[4].strip() else "HMI"` yields
"HMI" on an all-empty row. -/
theorem c6_instrument_default_counterexample :
    rowInstrument "" "" = "HMI" ∧ rowInstrument "" "" ≠ "SDO" := by
  constructor
  · rfl
  · decide

/-- C6 (amended): instrument precedence for row-level hypertext tables —
a non-empty generic column (text[2]) gives SDO; otherwise a non-empty
AIA-labeled column (text[4]) gives AIA; otherwise the result is HMI,
including when every column is empty (the HMI-labeled column text[7] is
never consulted and the default is HMI, not SDO). -/
theorem c6_instrument_precedence (t2 t4 : String) :
    (pyStrip t2 ≠ "" → rowInstrument t2 t4 = "SDO") ∧
      (pyStrip t2 = "" → pyStrip t4 ≠ "" → rowInstrument t2 t4 = "AIA") ∧
      (pyStrip t2 = "" → pyStrip t4 = "" → rowInstrument t2 t4 = "HMI") := by
  refine ⟨?_, ?_, ?_⟩
  · intro h
    simp [rowInstrument, h]
  · intro h1 h2
    simp [rowInstrument, h1, h2]
  · intro h1 h2
    simp [rowInstrument, h1, h2]

/-- Witness for C6 (amended): a non-empty generic column yields SDO. -/
theorem c6_instrument_precedence_witness : rowInstrument "x" "" = "SDO" :=
  (c6_instrument_precedence "x" "").1 (by decide)

/-- C7: attempting time-only repair (token of length 4-5 with no "/",
year supplied) with no anchor timestamp fails with the distinct
missing-anchor error — the `AttributeError` raised by `_hack.date()` on
`None`, which occurs on no other path — rather than a parse error or a
wrong timestamp. -/
theorem c7_missing_anchor (today : Date) (tok y : List Char)
    (hlen : tok.length = 4 ∨ tok.length = 5) (hslash : '/' ∉ tok) :
    _format_date today tok (some y) none = Except.error PyError.missingAnchor := by
  simp only [_format_date]
  rw [if_pos hlen, if_neg hslash]

/-- Witness for C7 at token "18:15" with year "2021". -/
theorem c7_missing_anchor_witness :
    _format_date ⟨2020, 1, 1⟩ "18:15".toList (some "2021".toList) none =
      Except.error PyError.missingAnchor :=
  c7_missing_anchor ⟨2020, 1, 1⟩ "18:15".toList "2021".toList (by decide) (by decide)

/-- C8: the categorical-code table is a closed enumeration of the codes
0-19: every code below 20 maps to its fixed description and reshaping
returns it, while any code of 20 or above (such as 99) makes reshaping
fail with the unknown-categorical-code error (the `KeyError` of the
`MAP_4[x]` lookup) instead of substituting a default. -/
theorem c8_categorical_codes (c : Nat) :
    (c < 20 → ∃ s, MAP_4 c = some s ∧ reformat4Comment c = Except.ok s) ∧
      (20 ≤ c → reformat4Comment c = Except.error PyError.unknownCategoricalCode) := by
  constructor
  · intro h
    interval_cases c <;> exact ⟨_, rfl, rfl⟩
  · intro h
    obtain ⟨k, rfl⟩ : ∃ k, c = k + 20 := ⟨c - 20, by omega⟩
    rfl

/-- Witness for C8 at the unknown code 99. -/
theorem c8_categorical_codes_witness :
    reformat4Comment 99 = Except.error PyError.unknownCategoricalCode :=
  (c8_categorical_codes 99).2 (by omega)

/-- C10: for a token whose cleaned length lies in {1,2,3,6,7,8} and whose
first "-"-separated segment fails timestamp parsing, the fallback slice
divisor `len(date) // 10` is zero, so `_format_date` raises
`ZeroDivisionError` instead of a timestamp-parse error. -/
theorem c10_zero_division (today : Date) (date y : List Char)
    (hack : Option Timestamp)
    (hlen : date.length = 1 ∨ date.length = 2 ∨ date.length = 3 ∨
      date.length = 6 ∨ date.length = 7 ∨ date.length = 8)
    (hparse : pdTimestampL today ((splitOnChar '-' date).headD []) = none) :
    _format_date today date (some y) hack = Except.error PyError.zeroDivision := by
  have h45 : ¬ (date.length = 4 ∨ date.length = 5) := by omega
  have h912 : ¬ (date.length = 9 ∨ date.length = 10 ∨ date.length = 11 ∨
      date.length = 12) := by omega
  have hdiv : date.length / 10 = 0 := Nat.div_eq_of_lt (by omega)
  simp only [_format_date]
  rw [if_neg h45, if_neg h912]
  rw [hparse]
  simp [hdiv]

/-- Witness for C10 at the length-6 garbage token "foobar". -/
theorem c10_zero_division_witness :
    _format_date ⟨2020, 1, 1⟩ "foobar".toList (some "2021".toList) none =
      Except.error PyError.zeroDivision :=
  c10_zero_division ⟨2020, 1, 1⟩ "foobar".toList "2021".toList none
    (by decide) (by decide)

/-- C5 counterexample: the claim asserts the final timeline is produced by
a stable sort, with equal-start events keeping their ingestion order.  The
code calls `sort_values("Start Time")` with the default unstable
`kind='quicksort'`, whose contract (`sortValuesQuicksort`) guarantees only
a start-ordered permutation: here a contract-satisfying output reverses
two equal-start events, so tie-breaking by ingestion order is not
guaranteed. -/
theorem c5_sort_tie_order_counterexample :
    sortValuesQuicksort
        [⟨⟨⟨2021, 3, 4⟩, ⟨10, 0⟩⟩, none, "SDO", "s1", "A"⟩,
         ⟨⟨⟨2021, 3, 4⟩, ⟨10, 0⟩⟩, none, "SDO", "s2", "B"⟩]
        [⟨⟨⟨2021, 3, 4⟩, ⟨10, 0⟩⟩, none, "SDO", "s2", "B"⟩,
         ⟨⟨⟨2021, 3, 4⟩, ⟨10, 0⟩⟩, none, "SDO", "s1", "A"⟩] ∧
      ¬ tiesInIngestionOrder
        [⟨⟨⟨2021, 3, 4⟩, ⟨10, 0⟩⟩, none, "SDO", "s1", "A"⟩,
         ⟨⟨⟨2021, 3, 4⟩, ⟨10, 0⟩⟩, none, "SDO", "s2", "B"⟩]
        [⟨⟨⟨2021, 3, 4⟩, ⟨10, 0⟩⟩, none, "SDO", "s2", "B"⟩,
         ⟨⟨⟨2021, 3, 4⟩, ⟨10, 0⟩⟩, none, "SDO", "s1", "A"⟩] := by
  constructor
  · refine ⟨by decide, ?_⟩
    simp only [sortedStarts, List.map_cons, List.map_nil, List.chain'_cons,
      List.chain'_singleton, and_true]
    decide
  · intro hties
    obtain ⟨i, j, hij, hi, hj⟩ :=
      hties ⟨⟨⟨2021, 3, 4⟩, ⟨10, 0⟩⟩, none, "SDO", "s1", "A"⟩
        ⟨⟨⟨2021, 3, 4⟩, ⟨10, 0⟩⟩, none, "SDO", "s2", "B"⟩ rfl
        ⟨0, 1, by omega, rfl, rfl⟩
    rcases j with _ | (_ | j2)
    · omega
    · have hi0 : i = 0 := by omega
      subst hi0
      simp only [List.get?] at hi
      exact absurd hi (by decide)
    · simp only [List.get?] at hj
      exact Option.noConfusion hj

/-- C5 (amended): for any output satisfying the sort contract, the start
times are non-decreasing, and so are those of the final deduplicated
timeline (`drop_duplicates` then keeps starts non-decreasing, in fact no
equal starts survive merging); the tie order of the unstable sort is not
guaranteed to follow ingestion order. -/
theorem c5_final_timeline_sorted (input output : List Event)
    (h : sortValuesQuicksort input output) :
    sortedStarts output ∧ sortedStarts (drop_duplicates output) :=
  ⟨h.2, drop_duplicates_sortedStarts output⟩

/-- Witness for C5 (amended) on a concrete unsorted two-event frame and its
sorted permutation. -/
theorem c5_final_timeline_sorted_witness :
    sortedStarts
        [⟨⟨⟨2021, 3, 4⟩, ⟨10, 0⟩⟩, none, "SDO", "w1", "P"⟩,
         ⟨⟨⟨2021, 3, 4⟩, ⟨10, 40⟩⟩, none, "AIA", "w2", "Q"⟩] ∧
      sortedStarts (drop_duplicates
        [⟨⟨⟨2021, 3, 4⟩, ⟨10, 0⟩⟩, none, "SDO", "w1", "P"⟩,
         ⟨⟨⟨2021, 3, 4⟩, ⟨10, 40⟩⟩, none, "AIA", "w2", "Q"⟩]) :=
  c5_final_timeline_sorted
    [⟨⟨⟨2021, 3, 4⟩, ⟨10, 40⟩⟩, none, "AIA", "w2", "Q"⟩,
     ⟨⟨⟨2021, 3, 4⟩, ⟨10, 0⟩⟩, none, "SDO", "w1", "P"⟩]
    [⟨⟨⟨2021, 3, 4⟩, ⟨10, 0⟩⟩, none, "SDO", "w1", "P"⟩,
     ⟨⟨⟨2021, 3, 4⟩, ⟨10, 40⟩⟩, none, "AIA", "w2", "Q"⟩]
    ⟨by decide, by
      simp only [sortedStarts, List.map_cons, List.map_nil, List.chain'_cons,
        List.chain'_singleton, and_true]
      decide⟩
